import Mathlib

/-!
Verification development for the flux reverse proxy core.

The JavaScript sources are shallowly embedded: JSON values become an
inductive type, JavaScript objects become insertion-ordered association
lists (assignment to an existing key keeps its original position, which is
the JavaScript property-order semantics), and fallible operations return
Option or Except.  Network dispatch and the gzip routine are external to
the program and are passed in as explicit function arguments.
-/

namespace Flux

/-- Model of a JSON value (request and response bodies). -/
inductive Json where
  | null : Json
  | bool (b : Bool) : Json
  | num (n : Int) : Json
  | str (s : String) : Json
  | arr (xs : List Json) : Json
  | obj (fields : List (String × Json)) : Json
deriving Repr

/-- JavaScript truthiness test on a JSON value: null, false, 0 and the
empty string are falsy; arrays and objects are always truthy. -/
def jsFalsy : Json → Bool
  | Json.null => true
  | Json.bool b => !b
  | Json.num n => n = 0
  | Json.str s => s = ""
  | Json.arr _ => false
  | Json.obj _ => false

/-- Escape of one character inside a JSON string literal (model of the
escaping JSON.stringify performs for quotes and backslashes). -/
def escChar (c : Char) : String :=
  if c = '"' then "\\\"" else if c = '\\' then "\\\\" else String.singleton c

/-- Escape of a whole string for inclusion in JSON output. -/
def escapeJson (s : String) : String :=
  s.data.foldl (fun acc c => acc ++ escChar c) ""

/-- ASCII uppercase of one character (model of the character mapping the
JavaScript toUpperCase performs on the ASCII method names involved). -/
def upperChar (c : Char) : Char :=
  if 97 ≤ c.toNat ∧ c.toNat ≤ 122 then Char.ofNat (c.toNat - 32) else c

/-- ASCII uppercase of a string. -/
def upperStr (s : String) : String := String.mk (s.data.map upperChar)

/-- ASCII lowercase of one character. -/
def lowerChar (c : Char) : Char :=
  if 65 ≤ c.toNat ∧ c.toNat ≤ 90 then Char.ofNat (c.toNat + 32) else c

/-- ASCII lowercase of a string (model of toLowerCase on header names). -/
def lowerStr (s : String) : String := String.mk (s.data.map lowerChar)

mutual

/-- Model of JSON.stringify on the embedded JSON values (compact output,
no extra whitespace, fields in object order, elements comma-joined). -/
def Json.stringify : Json → String
  | Json.null => "null"
  | Json.bool b => if b then "true" else "false"
  | Json.num n => toString n
  | Json.str s => "\"" ++ escapeJson s ++ "\""
  | Json.arr xs => "[" ++ Json.stringifyList xs ++ "]"
  | Json.obj fs => "\x7b" ++ Json.stringifyFields fs ++ "\x7d"

/-- Comma-joined serialization of the elements of a JSON array. -/
def Json.stringifyList : List Json → String
  | [] => ""
  | [x] => Json.stringify x
  | x :: xs => Json.stringify x ++ "," ++ Json.stringifyList xs

/-- Comma-joined serialization of the fields of a JSON object. -/
def Json.stringifyFields : List (String × Json) → String
  | [] => ""
  | [(k, v)] => "\"" ++ escapeJson k ++ "\":" ++ Json.stringify v
  | (k, v) :: fs =>
      "\"" ++ escapeJson k ++ "\":" ++ Json.stringify v ++ "," ++
        Json.stringifyFields fs

end

/-- Lookup of a property on a JavaScript object modelled as an ordered
association list (first matching key; the operations below keep keys
unique, so at most one entry matches). -/
def objGet (m : List (String × α)) (k : String) : Option α :=
  (m.find? (fun p => p.1 = k)).map (fun p => p.2)

/-- Property assignment on a JavaScript object: an existing key is updated
in place (keeping its original position); a new key is appended. -/
def objSet (m : List (String × α)) (k : String) (v : α) : List (String × α) :=
  match m with
  | [] => [(k, v)]
  | (k₁, v₁) :: rest =>
      if k₁ = k then (k, v) :: rest else (k₁, v₁) :: objSet rest k v

/-- Property deletion on a JavaScript object. -/
def objRemove (m : List (String × α)) (k : String) : List (String × α) :=
  m.filter (fun p => p.1 ≠ k)

/-- A per-target result as aggregated by the Distributor.  Option fields
model JavaScript properties that a given record may not carry: a network
failure record has no statusText and no headers, and its body property is
null (modelled as none). -/
structure TRecord where
  status : Nat
  statusText : Option String
  headers : Option (List (String × String))
  body : Option Json
  targetId : Option String
  error : Option String
deriving Repr

/-- The mock response configured on a response policy. -/
structure MockResponse where
  status : Option Nat
  statusText : Option String
  headers : Option (List (String × String))
  body : Option Json
deriving Repr

/-- The active response policy handed to the selector (the field
selectedTargetId is the alias the Distributor installs for targetId). -/
structure Config where
  strategy : String
  selectedTargetId : Option String
  mockResponse : Option MockResponse
  mockForce : Option Bool
  enabled : Bool
deriving Repr

/-- The single response object the selector builds.  Option fields model
properties that are present on some selector outputs and absent on
others (for example only target-backed selections carry selectedTarget). -/
structure SelResponse where
  selectedTarget : Option String
  strategy : Option String
  status : Nat
  statusText : Option String
  headers : Option (List (String × String))
  body : Option Json
  targetId : Option String
  error : Option String
deriving Repr

/-- The object selectResponse returns: the selected response plus the
full per-target map. -/
structure SelectorOutput where
  response : SelResponse
  targets : List (String × TRecord)
deriving Repr

namespace ResponseSelector

/-- Spread of a target record under a selection tag, modelling the
JavaScript object literals of the shape selectedTarget, strategy,
...response used throughout the selector. -/
def tagRecord (tag : String) (k : String) (r : TRecord) : SelResponse :=
  { selectedTarget := some k, strategy := some tag, status := r.status,
    statusText := r.statusText, headers := r.headers, body := r.body,
    targetId := r.targetId, error := r.error }

/-- Fallback: pick the first available entry of the aggregate, in object
order; with zero entries synthesize a 503. -/
def selectFirstAvailable (results : List (String × TRecord)) : SelResponse :=
  match results with
  | [] =>
      { selectedTarget := none, strategy := none, status := 503,
        statusText := some "Service Unavailable", headers := none,
        body := some (Json.obj [("error", Json.str "No responses available")]),
        targetId := none, error := none }
  | (k, r) :: _ => tagRecord "fallback" k r

/-- Lookup of the target result whose targetId equals the policy
reference; a falsy or dangling reference falls back to first-available. -/
def selectSpecificTarget (results : List (String × TRecord)) (config : Config) :
    SelResponse :=
  match config.selectedTargetId with
  | none => selectFirstAvailable results
  | some tid =>
      if tid = "" then selectFirstAvailable results
      else
        match results.find? (fun kv => kv.2.targetId = some tid) with
        | some (k, r) => tagRecord "specific" k r
        | none => selectFirstAvailable results

/-- Elapsed time recorded for a key, as the source reads it: the lookup
result is guarded by a JavaScript or-Infinity, so a missing or zero
timestamp counts as infinitely late (none models Infinity). -/
def timeOf (timestamps : List (String × Nat)) (k : String) : Option Nat :=
  match objGet timestamps k with
  | some t => if t = 0 then none else some t
  | none => none

/-- Strict comparison of elapsed times where none is Infinity. -/
def timeLt : Option Nat → Option Nat → Bool
  | some a, some b => a < b
  | some _, none => true
  | none, _ => false

/-- Head of the stable sort the source performs on the successful entries:
the first entry (in aggregate order) whose time is minimal.  A stable sort
followed by taking element zero yields exactly this entry. -/
def firstMinBy (f : α → Option Nat) : List α → Option α
  | [] => none
  | x :: xs =>
      match firstMinBy f xs with
      | none => some x
      | some y => if timeLt (f y) (f x) then some y else some x

/-- Strategy first: among entries with a 2xx status take the one that
settled earliest according to the recorded timestamps; with no 2xx entry
fall back to first-available. -/
def selectFirstResponse (results : List (String × TRecord))
    (timestamps : List (String × Nat)) : SelResponse :=
  let successes := results.filter (fun kv => 200 ≤ kv.2.status ∧ kv.2.status < 300)
  match firstMinBy (fun kv => timeOf timestamps kv.1) successes with
  | none => selectFirstAvailable results
  | some (k, r) => tagRecord "first" k r

/-- The mock object built from a configured mock response, with the
falsy-guarded defaults of the source (status 0 and empty statusText also
fall back, because the source uses JavaScript or-defaults). -/
def mockOf (m : MockResponse) : SelResponse :=
  { selectedTarget := none, strategy := some "mock",
    status := match m.status with
      | some s => if s = 0 then 200 else s
      | none => 200,
    statusText := some (match m.statusText with
      | some t => if t = "" then "OK" else t
      | none => "OK"),
    headers := some (m.headers.getD []),
    body := some (match m.body with
      | some b => if jsFalsy b then Json.obj [] else b
      | none => Json.obj []),
    targetId := none, error := none }

/-- Strategy mock: with no configured mock return a placeholder mock;
with force on (mockForce is anything but false) always return the mock;
with force off return the mock only when some target succeeded, else the
last target result tagged mock-fallback, else a synthesized 503. -/
def selectMockResponse (config : Config) (results : List (String × TRecord)) :
    SelResponse :=
  match config.mockResponse with
  | none =>
      { selectedTarget := none, strategy := some "mock", status := 200,
        statusText := some "OK", headers := none,
        body := some (Json.obj
          [("message", Json.str "Mock response (not configured)")]),
        targetId := none, error := none }
  | some m =>
      if config.mockForce ≠ some false then mockOf m
      else if results.any (fun kv => 200 ≤ kv.2.status ∧ kv.2.status < 300) then
        mockOf m
      else
        match results.getLast? with
        | some (k, r) => tagRecord "mock-fallback" k r
        | none =>
            { selectedTarget := none, strategy := some "mock", status := 503,
              statusText := some "Service Unavailable", headers := none,
              body := some (Json.obj
                [("error", Json.str "No target responses available")]),
              targetId := none, error := none }

/-- The disabled branch of selectResponse: the first-available response is
reused, and the object literal writes strategy default first and then
spreads the fallback object over it, so an existing strategy property of
the fallback object wins. -/
def disabledResponse (results : List (String × TRecord)) : SelResponse :=
  let d := selectFirstAvailable results
  { d with strategy := some (d.strategy.getD "default") }

/-- Entry point of the Response Selector: with no policy or a disabled one
degrade to the fallback; otherwise dispatch on the strategy (the switch
treats first and every unknown strategy alike).  Every branch returns the
full per-target map unchanged in targets. -/
def selectResponse (results : List (String × TRecord)) (config : Option Config)
    (timestamps : List (String × Nat)) : SelectorOutput :=
  match config with
  | none => { response := disabledResponse results, targets := results }
  | some c =>
      if c.enabled = false then
        { response := disabledResponse results, targets := results }
      else
        let selected :=
          match c.strategy with
          | "specific" => selectSpecificTarget results c
          | "mock" => selectMockResponse c results
          | _ => selectFirstResponse results timestamps
        { response := selected, targets := results }

end ResponseSelector

/-- Target metadata passed verbatim into every script invocation. -/
def Meta := List (String × Json)

/-- A compiled script module: up to three exported transform functions.
A function either returns the transformed value or fails, modelling a
thrown JavaScript exception as the error of an Except. -/
structure ScriptModule where
  transformHeaders : Option (List (String × String) → Meta → Except String (List (String × String)))
  transformParams : Option (List (String × String) → Meta → Except String (List (String × String)))
  transformBody : Option (Json → Meta → Except String Json)

/-- The request envelope the engine rewrites: headers, query params and an
optional JSON body (none models a null or absent body). -/
structure Envelope where
  headers : List (String × String)
  params : List (String × String)
  body : Option Json
deriving Repr

namespace TransformationEngine

/-- Per-call failure isolation: run one transform function and substitute
the original data when it throws. -/
def safeExecute (fn : α → Meta → Except String α) (data : α) (m : Meta) : α :=
  match fn data m with
  | Except.ok v => v
  | Except.error _ => data

/-- One engine pass: each present transform function rewrites its field in
turn through safeExecute; the body transform is skipped when the body is
null.  A missing script leaves the envelope as a plain copy (the JSON
round-trip copy the source makes is the identity on JSON values). -/
def transform (request : Envelope) (script : Option ScriptModule) (m : Meta) :
    Envelope :=
  match script with
  | none => request
  | some s =>
      let h := match s.transformHeaders with
        | some f => safeExecute f request.headers m
        | none => request.headers
      let p := match s.transformParams with
        | some f => safeExecute f request.params m
        | none => request.params
      let b := match request.body, s.transformBody with
        | some bv, some f => some (safeExecute f bv m)
        | bv, _ => bv
      { headers := h, params := p, body := b }

/-- The per-target pipeline of the Distributor: the matching scripts are
applied strictly in order, each observing the output of the previous
one. -/
def applyScripts (scripts : List (Option ScriptModule)) (m : Meta)
    (request : Envelope) : Envelope :=
  scripts.foldl (fun e s => transform e s m) request

end TransformationEngine

/-- Metadata stored for a loaded script. -/
structure ScriptMeta where
  tags : List String
  description : String
  pathPattern : String
deriving Repr, DecidableEq

/-- The in-memory registry of the Script Loader: two insertion-ordered
maps, one from name to compiled module and one from name to metadata. -/
structure LoaderState where
  scripts : List (String × ScriptModule)
  scriptMetadata : List (String × ScriptMeta)

/-- A script row as read from the backing store. -/
structure ScriptData where
  name : String
  content : String
  tags : List String
  description : String
  pathPattern : String

namespace ScriptLoader

/-- All loaded script names, in registration (map insertion) order. -/
def getAllScripts (st : LoaderState) : List String :=
  st.scripts.map (fun p => p.1)

/-- Tag filtering: with an empty target tag list every script is returned;
otherwise a script is kept when its metadata is missing, its tag list is
empty, or some script tag occurs among the target tags. -/
def getScriptsForTags (st : LoaderState) (targetTags : List String) :
    List String :=
  if targetTags = [] then getAllScripts st
  else
    (st.scripts.map (fun p => p.1)).filter (fun n =>
      match objGet st.scriptMetadata n with
      | none => true
      | some md => md.tags = [] || md.tags.any (fun t => targetTags.contains t))

/-- The metadata a script row is stored under. -/
def metaOf (row : ScriptData) : ScriptMeta :=
  { tags := row.tags, description := row.description,
    pathPattern := row.pathPattern }

/-- Eviction of one script name from both maps. -/
def deleteName (st : LoaderState) (n : String) : LoaderState :=
  { scripts := objRemove st.scripts n,
    scriptMetadata := objRemove st.scriptMetadata n }

/-- Loading of one script row: when compilation succeeds both maps are
updated in place; a compile failure leaves the registry untouched (the
source logs and returns false). -/
def loadScript (compile : String → Option ScriptModule) (st : LoaderState)
    (row : ScriptData) : LoaderState :=
  match compile row.content with
  | some module =>
      { scripts := objSet st.scripts row.name module,
        scriptMetadata := objSet st.scriptMetadata row.name (metaOf row) }
  | none => st

/-- The names evicted by a reload: names present in the registry but
absent from the new backing-store rows, visited in registration order. -/
def namesToEvict (st : LoaderState) (rows : List ScriptData) : List String :=
  (st.scripts.map (fun p => p.1)).filter
    (fun n => !(rows.map (fun r => r.name)).contains n)

/-- The final registry state of loadAllScripts: evictions first, then each
row loaded one at a time. -/
def loadAllScripts (compile : String → Option ScriptModule) (st : LoaderState)
    (rows : List ScriptData) : LoaderState :=
  rows.foldl (loadScript compile) ((namesToEvict st rows).foldl deleteName st)

/-- Every registry state a reload passes through, in order: the starting
state, the state after each single eviction, and the state after each
single script load.  The reload mutates the two maps in place, so these
intermediate states are real states of the shared registry. -/
def reloadStates (compile : String → Option ScriptModule) (st : LoaderState)
    (rows : List ScriptData) : List LoaderState :=
  let evicted := List.scanl deleteName st (namesToEvict st rows)
  let afterEvict := (namesToEvict st rows).foldl deleteName st
  evicted ++ (List.scanl (loadScript compile) afterEvict rows).tail

end ScriptLoader

/-- A configured proxy target.  The nickname is optional at this level
(the management surface requires one, but broadcast guards for its
absence with a hostname fallback). -/
structure Target where
  id : Option String
  nickname : Option String
  baseUrl : String
  tags : List String
  metadata : Meta

/-- What a single dispatch to one target settles to: a parsed response,
or a thrown error with its message (timeout, DNS failure, connection
refused and so on). -/
inductive Outcome where
  | ok (status : Nat) (statusText : String)
      (headers : List (String × String)) (body : Option Json) : Outcome
  | err (msg : String) : Outcome

/-- The response config stored on a script row. -/
structure RespConfig where
  strategy : String
  targetId : Option String
  mockResponse : Option MockResponse
  mockForce : Option Bool
  enabled : Bool

/-- A script row as broadcast reads it back from the store. -/
structure DbScript where
  responseConfig : Option RespConfig

namespace Distributor

/-- The aggregation key of a target: its nickname, or, when the nickname
is absent or empty (falsy), the hostname of its base URL.  Hostname
extraction from a URL is performed by the runtime and is passed in as the
function hostOf. -/
def aggKey (hostOf : String → String) (t : Target) : String :=
  match t.nickname with
  | some n => if n = "" then hostOf t.baseUrl else n
  | none => hostOf t.baseUrl

/-- The record broadcast files for one settled target: a success keeps the
response fields and adds the targetId; a failure is converted into the
record with status 0, the error message, a null body and the targetId. -/
def recordOf (t : Target) : Outcome → TRecord
  | Outcome.ok status statusText headers body =>
      { status := status, statusText := some statusText,
        headers := some headers, body := body, targetId := t.id,
        error := none }
  | Outcome.err msg =>
      { status := 0, statusText := none, headers := none, body := none,
        targetId := t.id, error := some msg }

/-- The aggregate map broadcast builds after all per-target tasks have
settled: one object assignment per target, in configuration order, keyed
by the aggregation key.  The per-target outcome function models the
settled promise of each dispatch (every exception has already been caught
and converted). -/
def aggregate (hostOf : String → String) (outcome : Target → Outcome)
    (targets : List Target) : List (String × TRecord) :=
  targets.foldl
    (fun m t => objSet m (aggKey hostOf t) (recordOf t (outcome t))) []

/-- The per-key completion timestamps broadcast records, with the elapsed
milliseconds of each target given by the elapsed function. -/
def timestampsOf (hostOf : String → String) (elapsed : Target → Nat)
    (targets : List Target) : List (String × Nat) :=
  targets.foldl
    (fun m t => objSet m (aggKey hostOf t) (elapsed t)) []

/-- The path-level response policy scan: the first script (in matching
order) whose stored responseConfig is enabled wins; its targetId is
aliased to selectedTargetId.  The list of matching script names comes from
getScriptsForPath of the script loader, whose defining revision is not
among the sources, so the scan is parameterized by that list. -/
def findActiveConfig (getScript : String → Option DbScript) :
    List String → Option Config
  | [] => none
  | n :: rest =>
      match getScript n with
      | some s =>
          match s.responseConfig with
          | some rc =>
              if rc.enabled then
                some { strategy := rc.strategy,
                       selectedTargetId := rc.targetId,
                       mockResponse := rc.mockResponse,
                       mockForce := rc.mockForce, enabled := rc.enabled }
              else findActiveConfig getScript rest
          | none => findActiveConfig getScript rest
      | none => findActiveConfig getScript rest

/-- Broadcast: determine the active response policy, dispatch to every
target (each settled outcome is supplied by the outcome function; a
rejection has already been converted to an error outcome by the catch
handler), aggregate every settled result, and hand the aggregate, the
policy and the timestamps to the Response Selector. -/
def broadcast (hostOf : String → String) (outcome : Target → Outcome)
    (elapsed : Target → Nat) (getScript : String → Option DbScript)
    (matchingScriptNames : List String) (targets : List Target) :
    SelectorOutput :=
  ResponseSelector.selectResponse
    (aggregate hostOf outcome targets)
    (findActiveConfig getScript matchingScriptNames)
    (timestampsOf hostOf elapsed targets)

/-- The non-forwardable header names stripped before dispatch. -/
def removeHeaders : List String :=
  ["host", "connection", "keep-alive", "transfer-encoding", "upgrade",
   "content-length", "content-encoding"]

/-- Header cleaning before dispatch: each listed name is deleted (the
source deletes the name and its lowercase form; the listed names are
already lowercase, so one deletion per name suffices). -/
def cleanHeaders (headers : List (String × String)) :
    List (String × String) :=
  removeHeaders.foldl objRemove headers

/-- The body a dispatch carries: a plain JSON text or gzip-compressed
bytes. -/
inductive BodyPayload where
  | text (s : String) : BodyPayload
  | bytes (bs : List Nat) : BodyPayload
deriving Repr, DecidableEq

/-- The outbound fetch options relevant to the wire format. -/
structure FetchOptions where
  method : String
  headers : List (String × String)
  body : Option BodyPayload
deriving Repr

/-- The initial per-target copy of the inbound request made by
sendToTarget: headers and params are copied, the body is JSON round
tripped when truthy and replaced by null otherwise. -/
def initialTransformed (orig : Envelope) : Envelope :=
  { headers := orig.headers, params := orig.params,
    body := match orig.body with
      | some b => if jsFalsy b then none else some b
      | none => none }

/-- The outbound request construction of sendToTarget in the gzip-handling
revision: headers are cleaned, and for a body-carrying method with a
truthy body the body is serialized and either re-gzipped (when the
transformed headers carry content-encoding gzip) with Content-Length set
to the compressed byte count and Content-Encoding gzip re-added, or sent
as plain JSON with Content-Type application/json and Content-Length set to
the uncompressed byte count.  The gzip routine of the runtime is passed in
as gzipFn, acting on the serialized text. -/
def sendToTargetOptions (gzipFn : String → List Nat) (method : String)
    (transformed : Envelope) : FetchOptions :=
  let headers₀ := cleanHeaders transformed.headers
  let bodyTruthy := match transformed.body with
    | some b => !jsFalsy b
    | none => false
  if (["POST", "PUT", "PATCH"].contains (upperStr method)) && bodyTruthy then
    let jsonBody := (transformed.body.getD Json.null).stringify
    if objGet transformed.headers "content-encoding" = some "gzip" then
      let gzippedBody := gzipFn jsonBody
      { method := method,
        headers := objSet
          (objSet headers₀ "Content-Length" (toString gzippedBody.length))
          "Content-Encoding" "gzip",
        body := some (BodyPayload.bytes gzippedBody) }
    else
      { method := method,
        headers := objSet
          (objSet headers₀ "Content-Type" "application/json")
          "Content-Length" (toString jsonBody.utf8ByteSize),
        body := some (BodyPayload.text jsonBody) }
  else
    { method := method, headers := headers₀, body := none }

/-- The full per-target request build of the gzip-handling revision of
sendToTarget: copy the inbound envelope, run the matching scripts through
the Transformation Engine, then build the outbound options. -/
def sendToTargetFetch (gzipFn : String → List Nat)
    (scripts : List (Option ScriptModule)) (m : Meta) (method : String)
    (orig : Envelope) : FetchOptions :=
  sendToTargetOptions gzipFn method
    (TransformationEngine.applyScripts scripts m (initialTransformed orig))

end Distributor

/-- The tag-filtering rule exactly as the specification words it: every
script whose tag set is empty or intersects the target tags, in
registration order.  Stated for comparison against getScriptsForTags. -/
def specScriptsForTags (st : LoaderState) (targetTags : List String) :
    List String :=
  (st.scripts.map (fun p => p.1)).filter (fun n =>
    let tags := ((objGet st.scriptMetadata n).map ScriptMeta.tags).getD []
    tags = [] || tags.any (fun t => targetTags.contains t))

/-! General facts about the JavaScript object model used by the
aggregation and header code. -/

theorem objGet_objSet_self (m : List (String × α)) (k : String) (v : α) :
    objGet (objSet m k v) k = some v := by
  induction m with
  | nil => simp [objGet, objSet, List.find?]
  | cons hd tl ih =>
    obtain ⟨k₁, v₁⟩ := hd
    by_cases h : k₁ = k
    · simp [objSet, h, objGet, List.find?]
    · simpa [objSet, h, objGet, List.find?] using ih

theorem objGet_objSet_ne (m : List (String × α)) (k k₀ : String) (v : α)
    (h : k₀ ≠ k) : objGet (objSet m k v) k₀ = objGet m k₀ := by
  induction m with
  | nil => simp [objGet, objSet, List.find?, Ne.symm h]
  | cons hd tl ih =>
    obtain ⟨k₁, v₁⟩ := hd
    by_cases h₁ : k₁ = k
    · subst h₁
      simp [objSet, objGet, List.find?, Ne.symm h]
    · by_cases h₂ : k₁ = k₀
      · subst h₂
        simp [objSet, h₁, objGet, List.find?]
      · simpa [objSet, h₁, objGet, List.find?, h₂] using ih

theorem objGet_objRemove_self (m : List (String × α)) (k : String) :
    objGet (objRemove m k) k = none := by
  induction m with
  | nil => simp [objGet, objRemove]
  | cons hd tl ih =>
    obtain ⟨k₁, v₁⟩ := hd
    by_cases h : k₁ = k
    · simp only [objRemove] at ih ⊢
      simpa [h] using ih
    · simp only [objRemove] at ih ⊢
      simp [h, objGet, List.find?]

theorem objGet_objRemove_ne (m : List (String × α)) (k k₀ : String)
    (h : k₀ ≠ k) : objGet (objRemove m k) k₀ = objGet m k₀ := by
  induction m with
  | nil => simp [objGet, objRemove]
  | cons hd tl ih =>
    obtain ⟨k₁, v₁⟩ := hd
    by_cases h₁ : k₁ = k
    · subst h₁
      simpa [objRemove, objGet, List.find?, Ne.symm h] using ih
    · by_cases h₂ : k₁ = k₀
      · subst h₂
        simp [objRemove, h₁, objGet, List.find?]
      · simpa [objRemove, h₁, objGet, List.find?, h₂] using ih

theorem objGet_some_mem {m : List (String × α)} {k : String} {v : α}
    (h : objGet m k = some v) : (k, v) ∈ m := by
  unfold objGet at h
  obtain ⟨p, hfind, hp⟩ := Option.map_eq_some'.mp h
  have hmem := List.mem_of_find?_eq_some hfind
  have hkey := List.find?_some hfind
  simp only [decide_eq_true_eq] at hkey
  obtain ⟨k₁, v₁⟩ := p
  simp only at hkey hp
  subst hkey
  subst hp
  exact hmem

theorem objGet_eq_none_of_not_mem {m : List (String × α)} {k : String}
    (h : ∀ kv ∈ m, kv.1 ≠ k) : objGet m k = none := by
  unfold objGet
  rw [List.find?_eq_none.mpr]
  · rfl
  · intro p hp
    simpa using h p hp

theorem mem_objSet {m : List (String × α)} {k : String} {v : α} {x : String × α} :
    x ∈ objSet m k v → x = (k, v) ∨ x ∈ m := by
  induction m with
  | nil =>
    intro h
    simpa [objSet] using h
  | cons hd tl ih =>
    intro h
    obtain ⟨k₁, v₁⟩ := hd
    simp only [objSet] at h
    by_cases h₁ : k₁ = k
    · rw [if_pos h₁] at h
      rcases List.mem_cons.mp h with h₂ | h₂
      · exact Or.inl h₂
      · exact Or.inr (List.mem_cons_of_mem _ h₂)
    · rw [if_neg h₁] at h
      rcases List.mem_cons.mp h with h₂ | h₂
      · exact Or.inr (h₂ ▸ List.mem_cons_self _ _)
      · rcases ih h₂ with h₃ | h₃
        · exact Or.inl h₃
        · exact Or.inr (List.mem_cons_of_mem _ h₃)

theorem objSet_map_fst_mem (m : List (String × α)) (k k₀ : String) (v : α) :
    k₀ ∈ (objSet m k v).map Prod.fst ↔ k₀ ∈ m.map Prod.fst ∨ k₀ = k := by
  induction m with
  | nil => simp [objSet]
  | cons hd tl ih =>
    obtain ⟨k₁, v₁⟩ := hd
    simp only [objSet]
    by_cases h₁ : k₁ = k
    · subst h₁
      rw [if_pos rfl]
      simp only [List.map_cons, List.mem_cons]
      tauto
    · rw [if_neg h₁]
      simp only [List.map_cons, List.mem_cons, ih]
      tauto

theorem objSet_map_fst_nodup (m : List (String × α)) (k : String) (v : α) :
    (m.map Prod.fst).Nodup → ((objSet m k v).map Prod.fst).Nodup := by
  induction m with
  | nil =>
    intro
    simp [objSet]
  | cons hd tl ih =>
    intro h
    obtain ⟨k₁, v₁⟩ := hd
    simp only [List.map_cons, List.nodup_cons] at h
    simp only [objSet]
    by_cases h₁ : k₁ = k
    · subst h₁
      rw [if_pos rfl]
      simpa [List.nodup_cons] using h
    · rw [if_neg h₁]
      simp only [List.map_cons, List.nodup_cons]
      refine ⟨fun hmem => ?_, ih h.2⟩
      rcases (objSet_map_fst_mem tl k k₁ v).mp hmem with h₂ | h₂
      · exact h.1 h₂
      · exact h₁ h₂

theorem objGet_filter_none (m : List (String × α)) (p : String × α → Bool)
    (k : String) (h : ∀ v, p (k, v) = false) : objGet (m.filter p) k = none := by
  apply objGet_eq_none_of_not_mem
  intro kv hkv hk
  have hp := List.of_mem_filter hkv
  obtain ⟨k₁, v₁⟩ := kv
  simp only at hk
  subst hk
  rw [h v₁] at hp
  exact Bool.false_ne_true hp

theorem objGet_filter_none_of_none (m : List (String × α))
    (p : String × α → Bool) (k : String) (h : objGet m k = none) :
    objGet (m.filter p) k = none := by
  apply objGet_eq_none_of_not_mem
  intro kv hkv hk
  unfold objGet at h
  rw [Option.map_eq_none'] at h
  rw [List.find?_eq_none] at h
  have := h kv (List.mem_of_mem_filter hkv)
  simp [hk] at this

theorem find?_unique {l : List β} {p : β → Bool} {x : β} (hx : x ∈ l)
    (hpx : p x = true) (hun : ∀ y ∈ l, p y = true → y = x) :
    l.find? p = some x := by
  induction l with
  | nil => cases hx
  | cons hd tl ih =>
    rcases List.mem_cons.mp hx with h | h
    · subst h
      simp [List.find?, hpx]
    · by_cases hp : p hd
      · have := hun hd (List.mem_cons_self _ _) hp
        subst this
        simp [List.find?, hpx]
      · simp only [List.find?, Bool.not_eq_true] at hp ⊢
        rw [hp]
        exact ih h (fun y hy => hun y (List.mem_cons_of_mem _ hy))

theorem foldl_objSet_objGet (key : β → String) (val : β → α) (ts : List β)
    (acc : List (String × α)) (k : String) :
    objGet (ts.foldl (fun m t => objSet m (key t) (val t)) acc) k =
      ((ts.reverse.find? (fun t => key t = k)).map val).or (objGet acc k) := by
  induction ts generalizing acc with
  | nil => simp
  | cons t ts ih =>
    simp only [List.foldl_cons, List.reverse_cons, List.find?_append]
    rw [ih]
    cases hfind : ts.reverse.find? (fun t => decide (key t = k)) with
    | some t₁ => simp [hfind]
    | none =>
      simp only [hfind, Option.map_none', Option.none_or]
      by_cases hk : key t = k
      · subst hk
        simp [objGet_objSet_self, List.find?]
      · rw [objGet_objSet_ne _ _ _ _ (fun h => hk h.symm)]
        simp [List.find?, hk]

theorem foldl_objSet_keys_mem (key : β → String) (val : β → α) (ts : List β)
    (acc : List (String × α)) (k : String) :
    (k ∈ (ts.foldl (fun m t => objSet m (key t) (val t)) acc).map Prod.fst) ↔
      k ∈ acc.map Prod.fst ∨ ∃ t ∈ ts, key t = k := by
  induction ts generalizing acc with
  | nil => simp
  | cons t ts ih =>
    simp only [List.foldl_cons]
    rw [ih, objSet_map_fst_mem]
    constructor
    · rintro (⟨h | h⟩ | ⟨t₁, ht₁, hk⟩)
      · exact Or.inl h
      · exact Or.inr ⟨t, List.mem_cons_self _ _, h.symm⟩
      · exact Or.inr ⟨t₁, List.mem_cons_of_mem _ ht₁, hk⟩
    · rintro (h | ⟨t₁, ht₁, hk⟩)
      · exact Or.inl (Or.inl h)
      · rcases List.mem_cons.mp ht₁ with h₁ | h₁
        · exact Or.inl (Or.inr (h₁ ▸ hk.symm))
        · exact Or.inr ⟨t₁, h₁, hk⟩

theorem foldl_objSet_keys_nodup (key : β → String) (val : β → α) (ts : List β)
    (acc : List (String × α)) (h : (acc.map Prod.fst).Nodup) :
    ((ts.foldl (fun m t => objSet m (key t) (val t)) acc).map Prod.fst).Nodup := by
  induction ts generalizing acc with
  | nil => exact h
  | cons t ts ih =>
    exact ih _ (objSet_map_fst_nodup _ _ _ h)

theorem foldl_objRemove_eq_filter (names : List String)
    (m : List (String × α)) :
    names.foldl objRemove m = m.filter (fun kv => !names.contains kv.1) := by
  induction names generalizing m with
  | nil => simp
  | cons n ns ih =>
    simp only [List.foldl_cons]
    rw [ih]
    unfold objRemove
    rw [List.filter_filter]
    apply List.filter_congr
    intro kv _
    by_cases h : kv.1 = n
    · simp [h]
    · simp [h, List.contains_cons, Ne.symm h]

/-! Facts about the elapsed-time order and the stable-sort head used by
the first strategy. -/

namespace ResponseSelector

theorem timeLt_irrefl (a : Option Nat) : timeLt a a = false := by
  cases a <;> simp [timeLt]

theorem timeLt_asymm {a b : Option Nat} (h : timeLt a b = true) :
    timeLt b a = false := by
  cases a <;> cases b <;> simp_all [timeLt]
  omega

theorem timeLt_false_trans {a b c : Option Nat} (h₁ : timeLt a b = false)
    (h₂ : timeLt b c = false) : timeLt a c = false := by
  cases a <;> cases b <;> cases c <;> simp_all [timeLt]
  omega

theorem firstMinBy_eq_none_iff (f : α → Option Nat) (l : List α) :
    firstMinBy f l = none ↔ l = [] := by
  cases l with
  | nil => simp [firstMinBy]
  | cons x xs =>
    simp only [firstMinBy]
    constructor
    · intro h
      exfalso
      cases hx : firstMinBy f xs with
      | none =>
        rw [hx] at h
        cases h
      | some w =>
        rw [hx] at h
        dsimp only at h
        by_cases hc : timeLt (f w) (f x) = true
        · rw [if_pos hc] at h; cases h
        · rw [if_neg hc] at h; cases h
    · intro h
      exact absurd h (List.cons_ne_nil _ _)

theorem firstMinBy_mem {f : α → Option Nat} {l : List α} {y : α} :
    firstMinBy f l = some y → y ∈ l := by
  induction l generalizing y with
  | nil =>
    intro h
    cases h
  | cons x xs ih =>
    intro h
    simp only [firstMinBy] at h
    cases hx : firstMinBy f xs with
    | none =>
      rw [hx] at h
      injection h with h
      exact h ▸ List.mem_cons_self _ _
    | some w =>
      rw [hx] at h
      dsimp only at h
      by_cases hc : timeLt (f w) (f x) = true
      · rw [if_pos hc] at h
        injection h with h
        subst h
        exact List.mem_cons_of_mem _ (ih hx)
      · rw [if_neg hc] at h
        injection h with h
        exact h ▸ List.mem_cons_self _ _

theorem firstMinBy_min {f : α → Option Nat} {l : List α} {y : α} :
    firstMinBy f l = some y → ∀ z ∈ l, timeLt (f z) (f y) = false := by
  induction l generalizing y with
  | nil =>
    intro h z hz
    cases hz
  | cons x xs ih =>
    intro h z hz
    simp only [firstMinBy] at h
    cases hx : firstMinBy f xs with
    | none =>
      rw [hx] at h
      injection h with h
      subst h
      have hxs : xs = [] := (firstMinBy_eq_none_iff f xs).mp hx
      subst hxs
      rcases List.mem_cons.mp hz with h₁ | h₁
      · subst h₁; exact timeLt_irrefl _
      · cases h₁
    | some w =>
      rw [hx] at h
      dsimp only at h
      by_cases hc : timeLt (f w) (f x) = true
      · rw [if_pos hc] at h
        injection h with h
        subst h
        rcases List.mem_cons.mp hz with h₁ | h₁
        · subst h₁
          exact timeLt_asymm hc
        · exact ih hx z h₁
      · rw [if_neg hc] at h
        injection h with h
        subst h
        rcases List.mem_cons.mp hz with h₁ | h₁
        · subst h₁; exact timeLt_irrefl _
        · exact timeLt_false_trans (ih hx z h₁) (by simpa using hc)


/-- Every branch of the selector returns the input aggregate unchanged as
the targets component. -/
theorem selectResponse_targets (results : List (String × TRecord))
    (config : Option Config) (timestamps : List (String × Nat)) :
    (selectResponse results config timestamps).targets = results := by
  cases config with
  | none => rfl
  | some c =>
    by_cases h : c.enabled = false <;> simp [selectResponse, h]

end ResponseSelector

/-! Claim theorems. -/

/-- C4: for every aggregate result map, when the active policy has
strategy mock with a configured mock response and mockForce is true or
unset (the source tests mockForce strictly against false, so unset means
force on), selectResponse returns the configured mock object, with the
defaults 200, OK, empty headers and empty body substituted for absent
fields - regardless of the target outcomes in the aggregate. -/
theorem selectResponse_mock_force (results : List (String × TRecord))
    (c : Config) (timestamps : List (String × Nat)) (m : MockResponse)
    (he : c.enabled = true) (hs : c.strategy = "mock")
    (hm : c.mockResponse = some m) (hf : c.mockForce ≠ some false) :
    (ResponseSelector.selectResponse results (some c) timestamps).response =
      ResponseSelector.mockOf m ∧
    (m.status = none →
      (ResponseSelector.selectResponse results (some c) timestamps).response.status = 200) ∧
    (m.statusText = none →
      (ResponseSelector.selectResponse results (some c) timestamps).response.statusText = some "OK") ∧
    (m.headers = none →
      (ResponseSelector.selectResponse results (some c) timestamps).response.headers = some []) ∧
    (m.body = none →
      (ResponseSelector.selectResponse results (some c) timestamps).response.body = some (Json.obj [])) := by
  have hmain : (ResponseSelector.selectResponse results (some c) timestamps).response =
      ResponseSelector.mockOf m := by
    simp [ResponseSelector.selectResponse, he, hs,
      ResponseSelector.selectMockResponse, hm, hf]
  refine ⟨hmain, ?_, ?_, ?_, ?_⟩ <;> intro h <;>
    rw [hmain] <;> simp [ResponseSelector.mockOf, h]

/-- Witness for C4: a concrete mock policy with no explicit fields, over
an aggregate in which every target failed (statuses 500 and 0); the
selected response is still the default mock with status 200. -/
theorem selectResponse_mock_force_witness :
    (ResponseSelector.selectResponse
        [("t1", { status := 500, statusText := some "ERR", headers := some [],
                  body := none, targetId := some "1", error := none }),
         ("t2", { status := 0, statusText := none, headers := none,
                  body := none, targetId := some "2", error := some "timeout" })]
        (some { strategy := "mock", selectedTargetId := none,
                mockResponse := some { status := none, statusText := none,
                                       headers := none, body := none },
                mockForce := none, enabled := true })
        []).response =
      ResponseSelector.mockOf { status := none, statusText := none,
                                headers := none, body := none } ∧
    (ResponseSelector.selectResponse
        [("t1", { status := 500, statusText := some "ERR", headers := some [],
                  body := none, targetId := some "1", error := none }),
         ("t2", { status := 0, statusText := none, headers := none,
                  body := none, targetId := some "2", error := some "timeout" })]
        (some { strategy := "mock", selectedTargetId := none,
                mockResponse := some { status := none, statusText := none,
                                       headers := none, body := none },
                mockForce := none, enabled := true })
        []).response.status = 200 := by
  have h := selectResponse_mock_force
    [("t1", { status := 500, statusText := some "ERR", headers := some [],
              body := none, targetId := some "1", error := none }),
     ("t2", { status := 0, statusText := none, headers := none,
              body := none, targetId := some "2", error := some "timeout" })]
    { strategy := "mock", selectedTargetId := none,
      mockResponse := some { status := none, statusText := none,
                             headers := none, body := none },
      mockForce := none, enabled := true }
    []
    { status := none, statusText := none, headers := none, body := none }
    rfl rfl rfl (by decide)
  exact ⟨h.1, h.2.1 rfl⟩

/-- C5 counterexample: two targets both answer 200; target a has the
smallest recorded elapsed time (0 ms versus 5 ms for target b), yet the
first strategy selects b, because the source guards each timestamp lookup
with a JavaScript or-Infinity and the recorded 0 is falsy.  The claim that
the target with the smallest recorded elapsed time is picked is therefore
false on this input. -/
theorem selectResponse_first_zero_timestamp_cex :
    (ResponseSelector.selectResponse
        [("a", { status := 200, statusText := some "OK", headers := some [],
                 body := none, targetId := some "1", error := none }),
         ("b", { status := 200, statusText := some "OK", headers := some [],
                 body := none, targetId := some "2", error := none })]
        (some { strategy := "first", selectedTargetId := none,
                mockResponse := none, mockForce := none, enabled := true })
        [("a", 0), ("b", 5)]).response.selectedTarget = some "b" ∧
    objGet [("a", (0 : Nat)), ("b", 5)] "a" = some 0 ∧
    objGet [("a", (0 : Nat)), ("b", 5)] "b" = some 5 ∧
    (0 : Nat) < 5 ∧
    (some "b" : Option String) ≠ some "a" := by
  refine ⟨rfl, rfl, rfl, by decide, by decide⟩

/-- C5 (amended): under strategy first the selector picks, among targets
with a 2xx status, an entry whose treated elapsed time is minimal, where a
missing or zero recorded timestamp is treated as infinitely late and ties
resolve to the earlier entry in aggregation order; when no target has a
2xx status it falls back to the first-available result. -/
theorem selectResponse_first_minimal (results : List (String × TRecord))
    (c : Config) (timestamps : List (String × Nat))
    (he : c.enabled = true) (hs : c.strategy = "first") :
    (results.filter (fun kv => 200 ≤ kv.2.status ∧ kv.2.status < 300) = [] →
      (ResponseSelector.selectResponse results (some c) timestamps).response =
        ResponseSelector.selectFirstAvailable results) ∧
    (∀ kv, ResponseSelector.firstMinBy
        (fun kv => ResponseSelector.timeOf timestamps kv.1)
        (results.filter (fun kv => 200 ≤ kv.2.status ∧ kv.2.status < 300)) = some kv →
      (ResponseSelector.selectResponse results (some c) timestamps).response =
        ResponseSelector.tagRecord "first" kv.1 kv.2 ∧
      kv ∈ results.filter (fun kv => 200 ≤ kv.2.status ∧ kv.2.status < 300) ∧
      ∀ kv₂ ∈ results.filter (fun kv => 200 ≤ kv.2.status ∧ kv.2.status < 300),
        ResponseSelector.timeLt (ResponseSelector.timeOf timestamps kv₂.1)
          (ResponseSelector.timeOf timestamps kv.1) = false) := by
  have hred : (ResponseSelector.selectResponse results (some c) timestamps).response =
      ResponseSelector.selectFirstResponse results timestamps := by
    simp [ResponseSelector.selectResponse, he, hs]
  constructor
  · intro hempty
    rw [hred]
    simp only [ResponseSelector.selectFirstResponse]
    rw [hempty]
    rfl
  · intro kv hmin
    obtain ⟨k₀, r₀⟩ := kv
    refine ⟨?_, ResponseSelector.firstMinBy_mem hmin,
      ResponseSelector.firstMinBy_min hmin⟩
    rw [hred]
    simp only [ResponseSelector.selectFirstResponse]
    rw [hmin]

/-- Witness for C5: the specification scenario - two targets both
answering 200, one recorded at 50 ms and one at 400 ms; the strategy
selects the 50 ms target. -/
theorem selectResponse_first_minimal_witness :
    (ResponseSelector.selectResponse
        [("a", { status := 200, statusText := some "OK", headers := some [],
                 body := none, targetId := some "1", error := none }),
         ("b", { status := 200, statusText := some "OK", headers := some [],
                 body := none, targetId := some "2", error := none })]
        (some { strategy := "first", selectedTargetId := none,
                mockResponse := none, mockForce := none, enabled := true })
        [("a", 50), ("b", 400)]).response =
      ResponseSelector.tagRecord "first" "a"
        { status := 200, statusText := some "OK", headers := some [],
          body := none, targetId := some "1", error := none } := by
  exact ((selectResponse_first_minimal
    [("a", { status := 200, statusText := some "OK", headers := some [],
             body := none, targetId := some "1", error := none }),
     ("b", { status := 200, statusText := some "OK", headers := some [],
             body := none, targetId := some "2", error := none })]
    { strategy := "first", selectedTargetId := none,
      mockResponse := none, mockForce := none, enabled := true }
    [("a", 50), ("b", 400)] rfl rfl).2
    ("a", { status := 200, statusText := some "OK", headers := some [],
            body := none, targetId := some "1", error := none }) rfl).1

/-- C6 counterexample: with no policy and one available target result, the
returned response is tagged strategy fallback, not strategy default: the
source spreads the fallback object after writing the default tag, so the
fallback tag wins. -/
theorem selectResponse_disabled_strategy_cex :
    (ResponseSelector.selectResponse
        [("t1", { status := 200, statusText := some "OK", headers := some [],
                  body := none, targetId := some "1", error := none })]
        none []).response.strategy = some "fallback" ∧
    (some "fallback" : Option String) ≠ some "default" := by
  exact ⟨rfl, by decide⟩

/-- C6 (amended): with no policy or a disabled one and a non-empty
aggregate, selectResponse returns the first target result in aggregation
order as the selected response, tagged strategy fallback (the spread of
the fallback object overwrites the intended default tag), and still
returns the full per-target map alongside it. -/
theorem selectResponse_disabled_fallback (results : List (String × TRecord))
    (config : Option Config) (timestamps : List (String × Nat))
    (k : String) (r : TRecord) (rest : List (String × TRecord))
    (hres : results = (k, r) :: rest)
    (hdis : config = none ∨ ∃ c, config = some c ∧ c.enabled = false) :
    (ResponseSelector.selectResponse results config timestamps).targets = results ∧
    (ResponseSelector.selectResponse results config timestamps).response =
      ResponseSelector.tagRecord "fallback" k r ∧
    (ResponseSelector.selectResponse results config timestamps).response.strategy =
      some "fallback" := by
  subst hres
  rcases hdis with h | ⟨c, hc, hen⟩
  · subst h
    exact ⟨rfl, rfl, rfl⟩
  · subst hc
    refine ⟨?_, ?_, ?_⟩ <;>
      simp [ResponseSelector.selectResponse, hen,
        ResponseSelector.disabledResponse, ResponseSelector.selectFirstAvailable,
        ResponseSelector.tagRecord]

/-- Witness for C6: a concrete disabled policy over a two-entry aggregate;
the first entry is returned, tagged fallback, with the map intact. -/
theorem selectResponse_disabled_fallback_witness :
    (ResponseSelector.selectResponse
        [("t1", { status := 201, statusText := some "Created", headers := some [],
                  body := none, targetId := some "1", error := none }),
         ("t2", { status := 500, statusText := some "ERR", headers := some [],
                  body := none, targetId := some "2", error := none })]
        (some { strategy := "first", selectedTargetId := none,
                mockResponse := none, mockForce := none, enabled := false })
        []).targets =
      [("t1", { status := 201, statusText := some "Created", headers := some [],
                body := none, targetId := some "1", error := none }),
       ("t2", { status := 500, statusText := some "ERR", headers := some [],
                body := none, targetId := some "2", error := none })] ∧
    (ResponseSelector.selectResponse
        [("t1", { status := 201, statusText := some "Created", headers := some [],
                  body := none, targetId := some "1", error := none }),
         ("t2", { status := 500, statusText := some "ERR", headers := some [],
                  body := none, targetId := some "2", error := none })]
        (some { strategy := "first", selectedTargetId := none,
                mockResponse := none, mockForce := none, enabled := false })
        []).response =
      ResponseSelector.tagRecord "fallback" "t1"
        { status := 201, statusText := some "Created", headers := some [],
          body := none, targetId := some "1", error := none } := by
  have h := selectResponse_disabled_fallback
    [("t1", { status := 201, statusText := some "Created", headers := some [],
              body := none, targetId := some "1", error := none }),
     ("t2", { status := 500, statusText := some "ERR", headers := some [],
              body := none, targetId := some "2", error := none })]
    (some { strategy := "first", selectedTargetId := none,
            mockResponse := none, mockForce := none, enabled := false })
    [] "t1"
    { status := 201, statusText := some "Created", headers := some [],
      body := none, targetId := some "1", error := none }
    [("t2", { status := 500, statusText := some "ERR", headers := some [],
              body := none, targetId := some "2", error := none })]
    rfl (Or.inr ⟨_, rfl, rfl⟩)
  exact ⟨h.1, h.2.1⟩

/-- C10: for every enabled policy, selectResponse returns an object with a
response field holding the single selected response of the active strategy
and a targets field equal to the unmodified input aggregate - the full
per-target map accompanies the result of every strategy. -/
theorem selectResponse_policy_output (results : List (String × TRecord))
    (c : Config) (timestamps : List (String × Nat)) (he : c.enabled = true) :
    (ResponseSelector.selectResponse results (some c) timestamps).targets = results ∧
    (c.strategy = "specific" →
      (ResponseSelector.selectResponse results (some c) timestamps).response =
        ResponseSelector.selectSpecificTarget results c) ∧
    (c.strategy = "mock" →
      (ResponseSelector.selectResponse results (some c) timestamps).response =
        ResponseSelector.selectMockResponse c results) ∧
    (c.strategy = "first" →
      (ResponseSelector.selectResponse results (some c) timestamps).response =
        ResponseSelector.selectFirstResponse results timestamps) := by
  refine ⟨ResponseSelector.selectResponse_targets _ _ _, ?_, ?_, ?_⟩ <;>
    intro hs <;> simp [ResponseSelector.selectResponse, he, hs]

/-- Witness for C10: a concrete enabled specific policy; the output holds
both the selected response and the untouched aggregate. -/
theorem selectResponse_policy_output_witness :
    (ResponseSelector.selectResponse
        [("t1", { status := 200, statusText := some "OK", headers := some [],
                  body := none, targetId := some "1", error := none })]
        (some { strategy := "specific", selectedTargetId := some "1",
                mockResponse := none, mockForce := none, enabled := true })
        []).targets =
      [("t1", { status := 200, statusText := some "OK", headers := some [],
                body := none, targetId := some "1", error := none })] ∧
    (ResponseSelector.selectResponse
        [("t1", { status := 200, statusText := some "OK", headers := some [],
                  body := none, targetId := some "1", error := none })]
        (some { strategy := "specific", selectedTargetId := some "1",
                mockResponse := none, mockForce := none, enabled := true })
        []).response =
      ResponseSelector.selectSpecificTarget
        [("t1", { status := 200, statusText := some "OK", headers := some [],
                  body := none, targetId := some "1", error := none })]
        { strategy := "specific", selectedTargetId := some "1",
          mockResponse := none, mockForce := none, enabled := true } := by
  have h := selectResponse_policy_output
    [("t1", { status := 200, statusText := some "OK", headers := some [],
              body := none, targetId := some "1", error := none })]
    { strategy := "specific", selectedTargetId := some "1",
      mockResponse := none, mockForce := none, enabled := true }
    [] rfl
  exact ⟨h.1, h.2.1 rfl⟩

/-- C3 counterexample: a single loaded script with the non-empty tag list
a, queried with the empty target tag list: the specification rule (tags
empty or intersecting) excludes it, but getScriptsForTags returns every
script when the target tag list is empty, so the script is included. -/
theorem getScriptsForTags_empty_tags_cex :
    ScriptLoader.getScriptsForTags
      { scripts := [("s", { transformHeaders := none, transformParams := none,
                            transformBody := none })],
        scriptMetadata := [("s", { tags := ["a"], description := "",
                                   pathPattern := "" })] }
      [] = ["s"] ∧
    specScriptsForTags
      { scripts := [("s", { transformHeaders := none, transformParams := none,
                            transformBody := none })],
        scriptMetadata := [("s", { tags := ["a"], description := "",
                                   pathPattern := "" })] }
      [] = [] ∧
    (["s"] : List String) ≠ [] := by
  exact ⟨rfl, rfl, by decide⟩

/-- C3 (amended): getScriptsForTags returns every loaded script (in
registration order) when the target tag list is empty; for a non-empty
target tag list it returns exactly the scripts whose tag set is missing,
empty or intersects the target tags, in registration order - so a script
with empty tags is always included, and a script with non-empty disjoint
tags is excluded precisely when the target tag list is non-empty. -/
theorem getScriptsForTags_characterization (st : LoaderState)
    (targetTags : List String) :
    ScriptLoader.getScriptsForTags st targetTags =
      if targetTags = [] then ScriptLoader.getAllScripts st
      else specScriptsForTags st targetTags := by
  by_cases h : targetTags = []
  · simp [ScriptLoader.getScriptsForTags, h]
  · simp only [ScriptLoader.getScriptsForTags, if_neg h, specScriptsForTags]
    apply List.filter_congr
    intro n _
    cases hmd : objGet st.scriptMetadata n with
    | none => simp [hmd]
    | some md => simp [hmd]

/-- C7: a transform function that throws is caught per call and the
affected field keeps its pre-call value - a script whose transformHeaders,
transformParams or transformBody fails at the current value leaves that
field unchanged, and the remaining scripts of the pipeline still run on
the result. -/
theorem transform_failure_isolation (e : Envelope) (s : ScriptModule)
    (m : Meta) (rest : List (Option ScriptModule)) :
    (∀ f r, s.transformHeaders = some f → f e.headers m = Except.error r →
      (TransformationEngine.transform e (some s) m).headers = e.headers) ∧
    (∀ f r, s.transformParams = some f → f e.params m = Except.error r →
      (TransformationEngine.transform e (some s) m).params = e.params) ∧
    (∀ f r b, e.body = some b → s.transformBody = some f →
        f b m = Except.error r →
      (TransformationEngine.transform e (some s) m).body = e.body) ∧
    TransformationEngine.applyScripts (some s :: rest) m e =
      TransformationEngine.applyScripts rest m
        (TransformationEngine.transform e (some s) m) := by
  refine ⟨?_, ?_, ?_, rfl⟩
  · intro f r hf herr
    simp [TransformationEngine.transform, hf,
      TransformationEngine.safeExecute, herr]
  · intro f r hf herr
    simp [TransformationEngine.transform, hf,
      TransformationEngine.safeExecute, herr]
  · intro f r b hb hf herr
    simp [TransformationEngine.transform, hb, hf,
      TransformationEngine.safeExecute, herr]

/-- Witness for C7: a concrete script whose three transform functions all
throw; each field of the envelope keeps its pre-call value. -/
theorem transform_failure_isolation_witness :
    (TransformationEngine.transform
        { headers := [("h", "1")], params := [("p", "2")],
          body := some (Json.obj [("a", Json.num 1)]) }
        (some { transformHeaders := some (fun _ _ => Except.error "boom"),
                transformParams := some (fun _ _ => Except.error "boom"),
                transformBody := some (fun _ _ => Except.error "boom") })
        []).headers = [("h", "1")] ∧
    (TransformationEngine.transform
        { headers := [("h", "1")], params := [("p", "2")],
          body := some (Json.obj [("a", Json.num 1)]) }
        (some { transformHeaders := some (fun _ _ => Except.error "boom"),
                transformParams := some (fun _ _ => Except.error "boom"),
                transformBody := some (fun _ _ => Except.error "boom") })
        []).params = [("p", "2")] ∧
    (TransformationEngine.transform
        { headers := [("h", "1")], params := [("p", "2")],
          body := some (Json.obj [("a", Json.num 1)]) }
        (some { transformHeaders := some (fun _ _ => Except.error "boom"),
                transformParams := some (fun _ _ => Except.error "boom"),
                transformBody := some (fun _ _ => Except.error "boom") })
        []).body = some (Json.obj [("a", Json.num 1)]) := by
  have h := transform_failure_isolation
    { headers := [("h", "1")], params := [("p", "2")],
      body := some (Json.obj [("a", Json.num 1)]) }
    { transformHeaders := some (fun _ _ => Except.error "boom"),
      transformParams := some (fun _ _ => Except.error "boom"),
      transformBody := some (fun _ _ => Except.error "boom") }
    [] []
  exact ⟨h.1 _ "boom" rfl rfl, h.2.1 _ "boom" rfl rfl,
    h.2.2.1 _ "boom" _ rfl rfl rfl⟩

/-- Lookup in the aggregate map: the entry at a key is the record of the
last target (in configuration order) whose aggregation key matches - a
later target with the same key overwrites an earlier one. -/
theorem aggregate_objGet (hostOf : String → String) (oc : Target → Outcome)
    (targets : List Target) (k : String) :
    objGet (Distributor.aggregate hostOf oc targets) k =
      (targets.reverse.find? (fun t => Distributor.aggKey hostOf t = k)).map
        (fun t => Distributor.recordOf t (oc t)) := by
  rw [Distributor.aggregate, foldl_objSet_objGet]
  simp [objGet]

/-- C1 counterexample: two targets share the nickname dup; the first
times out while the second succeeds, and the aggregate returned by
broadcast holds only the success record of the second target - the
failure record {status 0, error, body null, targetId} of the first target
is not in the aggregate, so the claim that every failing target is
recorded there fails on this input. -/
theorem broadcast_failure_overwritten_cex :
    (fun t => if t.id = some "1" then Outcome.err "timeout"
              else Outcome.ok 200 "OK" [] none)
      ({ id := some "1", nickname := some "dup", baseUrl := "http://h1",
         tags := [], metadata := [] } : Target) = Outcome.err "timeout" ∧
    Distributor.aggregate (fun _ => "h")
      (fun t => if t.id = some "1" then Outcome.err "timeout"
                else Outcome.ok 200 "OK" [] none)
      [{ id := some "1", nickname := some "dup", baseUrl := "http://h1",
         tags := [], metadata := [] },
       { id := some "2", nickname := some "dup", baseUrl := "http://h2",
         tags := [], metadata := [] }] =
      [("dup", { status := 200, statusText := some "OK", headers := some [],
                 body := none, targetId := some "2", error := none })] := by
  exact ⟨rfl, rfl⟩

/-- C1 (amended): broadcast settles every target and never itself fails:
the aggregate it hands to the selector has an entry under the aggregation
key of every target, a failing target whose key no other target shares is
recorded as {status 0, error message, body null, targetId}, and the full
aggregate is returned unchanged as the targets component.  When several
targets share one aggregation key, the last of them in configuration
order owns the entry, so an earlier failure record can be overwritten. -/
theorem broadcast_failure_recorded (hostOf : String → String)
    (oc : Target → Outcome) (elapsed : Target → Nat)
    (getScript : String → Option DbScript) (names : List String)
    (targets : List Target) (t : Target) (msg : String)
    (ht : t ∈ targets) (herr : oc t = Outcome.err msg)
    (huniq : ∀ t₂ ∈ targets,
      Distributor.aggKey hostOf t₂ = Distributor.aggKey hostOf t → t₂ = t) :
    objGet (Distributor.aggregate hostOf oc targets)
        (Distributor.aggKey hostOf t) =
      some { status := 0, statusText := none, headers := none, body := none,
             targetId := t.id, error := some msg } ∧
    (Distributor.broadcast hostOf oc elapsed getScript names targets).targets =
      Distributor.aggregate hostOf oc targets ∧
    ∀ t₂ ∈ targets,
      (objGet (Distributor.aggregate hostOf oc targets)
        (Distributor.aggKey hostOf t₂)).isSome = true := by
  refine ⟨?_, ?_, ?_⟩
  · rw [aggregate_objGet]
    have hfind : targets.reverse.find?
        (fun t₂ => Distributor.aggKey hostOf t₂ = Distributor.aggKey hostOf t) =
        some t := by
      apply find?_unique (List.mem_reverse.mpr ht) (by simp)
      intro y hy hpy
      exact huniq y (List.mem_reverse.mp hy) (by simpa using hpy)
    rw [hfind]
    simp [Distributor.recordOf, herr]
  · rw [Distributor.broadcast]
    exact ResponseSelector.selectResponse_targets _ _ _
  · intro t₂ ht₂
    rw [aggregate_objGet]
    have hsome : (targets.reverse.find?
        (fun x => Distributor.aggKey hostOf x = Distributor.aggKey hostOf t₂)).isSome := by
      rw [List.find?_isSome]
      exact ⟨t₂, List.mem_reverse.mpr ht₂, by simp⟩
    obtain ⟨t₃, hf⟩ := Option.isSome_iff_exists.mp hsome
    rw [hf]
    rfl

/-- Witness for C1: one target whose dispatch is refused; its failure is
recorded in the aggregate under its nickname as the status-0 record. -/
theorem broadcast_failure_recorded_witness :
    objGet
      (Distributor.aggregate (fun _ => "h") (fun _ => Outcome.err "refused")
        [{ id := some "9", nickname := some "n1", baseUrl := "http://h9",
           tags := [], metadata := [] }])
      (Distributor.aggKey (fun _ => "h")
        { id := some "9", nickname := some "n1", baseUrl := "http://h9",
          tags := [], metadata := [] }) =
      some { status := 0, statusText := none, headers := none, body := none,
             targetId := some "9", error := some "refused" } := by
  exact (broadcast_failure_recorded (fun _ => "h") (fun _ => Outcome.err "refused")
    (fun _ => 1) (fun _ => none) []
    [{ id := some "9", nickname := some "n1", baseUrl := "http://h9",
       tags := [], metadata := [] }]
    { id := some "9", nickname := some "n1", baseUrl := "http://h9",
      tags := [], metadata := [] }
    "refused" (List.mem_singleton.mpr rfl) rfl
    (fun t₂ ht₂ _ => List.mem_singleton.mp ht₂)).1

/-- C2 counterexample: two configured targets share the nickname dup, so
the aggregate has a single entry for two targets - the claim that the map
always has exactly one entry per configured target, with hostname used on
key collision, fails on this input. -/
theorem aggregate_nickname_collision_cex :
    (Distributor.aggregate (fun _ => "h")
      (fun _ => Outcome.ok 200 "OK" [] none)
      [{ id := some "1", nickname := some "dup", baseUrl := "http://h1",
         tags := [], metadata := [] },
       { id := some "2", nickname := some "dup", baseUrl := "http://h2",
         tags := [], metadata := [] }]).length = 1 ∧
    ([{ id := some "1", nickname := some "dup", baseUrl := "http://h1",
        tags := [], metadata := [] },
      { id := some "2", nickname := some "dup", baseUrl := "http://h2",
        tags := [], metadata := [] }] : List Target).length = 2 ∧
    (1 : Nat) ≠ 2 := by
  exact ⟨rfl, rfl, by decide⟩

/-- C2 (amended): the aggregate broadcast builds has exactly one entry per
distinct aggregation key - the keys are pairwise distinct and are exactly
the keys of the configured targets (nickname when present and non-empty,
else the hostname of the base URL; the hostname is a fallback for a
missing nickname, not a collision escape), and every target has an entry
under its key.  Targets sharing a key collapse into one entry, the later
target in configuration order overwriting the earlier. -/
theorem aggregate_entries_per_key (hostOf : String → String)
    (oc : Target → Outcome) (targets : List Target) :
    ((Distributor.aggregate hostOf oc targets).map Prod.fst).Nodup ∧
    (∀ k, k ∈ (Distributor.aggregate hostOf oc targets).map Prod.fst ↔
      ∃ t ∈ targets, Distributor.aggKey hostOf t = k) ∧
    (∀ t ∈ targets,
      objGet (Distributor.aggregate hostOf oc targets)
        (Distributor.aggKey hostOf t) =
      (targets.reverse.find?
        (fun x => Distributor.aggKey hostOf x = Distributor.aggKey hostOf t)).map
          (fun x => Distributor.recordOf x (oc x)) ∧
      (objGet (Distributor.aggregate hostOf oc targets)
        (Distributor.aggKey hostOf t)).isSome = true) := by
  refine ⟨?_, ?_, ?_⟩
  · exact foldl_objSet_keys_nodup _ _ _ _ (by simp)
  · intro k
    rw [Distributor.aggregate, foldl_objSet_keys_mem]
    simp
  · intro t ht
    refine ⟨aggregate_objGet _ _ _ _, ?_⟩
    rw [aggregate_objGet]
    have hsome : (targets.reverse.find?
        (fun x => Distributor.aggKey hostOf x = Distributor.aggKey hostOf t)).isSome := by
      rw [List.find?_isSome]
      exact ⟨t, List.mem_reverse.mpr ht, by simp⟩
    obtain ⟨t₃, hf⟩ := Option.isSome_iff_exists.mp hsome
    rw [hf]
    rfl

/-- Witness for C2: two distinct nicknames give two entries, one per
target, each present under its own key. -/
theorem aggregate_entries_per_key_witness :
    ((Distributor.aggregate (fun _ => "h")
      (fun _ => Outcome.ok 200 "OK" [] none)
      [{ id := some "1", nickname := some "n1", baseUrl := "http://h1",
         tags := [], metadata := [] },
       { id := some "2", nickname := some "n2", baseUrl := "http://h2",
         tags := [], metadata := [] }]).map Prod.fst).Nodup ∧
    (objGet (Distributor.aggregate (fun _ => "h")
      (fun _ => Outcome.ok 200 "OK" [] none)
      [{ id := some "1", nickname := some "n1", baseUrl := "http://h1",
         tags := [], metadata := [] },
       { id := some "2", nickname := some "n2", baseUrl := "http://h2",
         tags := [], metadata := [] }])
      (Distributor.aggKey (fun _ => "h")
        { id := some "1", nickname := some "n1", baseUrl := "http://h1",
          tags := [], metadata := [] })).isSome = true := by
  have h := aggregate_entries_per_key (fun _ => "h")
    (fun _ => Outcome.ok 200 "OK" [] none)
    [{ id := some "1", nickname := some "n1", baseUrl := "http://h1",
       tags := [], metadata := [] },
     { id := some "2", nickname := some "n2", baseUrl := "http://h2",
       tags := [], metadata := [] }]
  exact ⟨h.1, (h.2.2 _ (by simp)).2⟩

/-- C8: the outbound body construction of sendToTarget (gzip-handling
revision).  For a body-carrying method with a truthy transformed body,
when the inbound request was gzip-encoded (and the scripts leave the
content-encoding header entries alone, which ties the tested transformed
header to the inbound one), the serialized body is gzip-compressed and
the outbound headers carry Content-Encoding gzip and a Content-Length
equal to the compressed byte count, with the inherited lowercase
content-encoding entry stripped; when the inbound request was not
gzip-encoded, the body is sent as plain serialized JSON with Content-Type
application/json and Content-Length equal to the uncompressed byte count,
and no outbound header carries a content-encoding under any ASCII casing
(the header-casing hypothesis reflects that the HTTP runtime lowercases
inbound header names). -/
theorem sendToTarget_gzip_roundtrip (gzipFn : String → List Nat)
    (scripts : List (Option ScriptModule)) (m : Meta) (method : String)
    (orig : Envelope) (tr : Envelope) (b : Json)
    (htr : tr = TransformationEngine.applyScripts scripts m
      (Distributor.initialTransformed orig))
    (hmeth : (["POST", "PUT", "PATCH"].contains (upperStr method)) = true)
    (hb : tr.body = some b) (hbt : jsFalsy b = false)
    (hpres : objGet tr.headers "content-encoding" =
      objGet orig.headers "content-encoding")
    (hlc : ∀ kv ∈ tr.headers, lowerStr kv.1 = "content-encoding" →
      kv.1 = "content-encoding") :
    (objGet orig.headers "content-encoding" = some "gzip" →
      (Distributor.sendToTargetFetch gzipFn scripts m method orig).body =
        some (Distributor.BodyPayload.bytes (gzipFn (Json.stringify b))) ∧
      objGet (Distributor.sendToTargetFetch gzipFn scripts m method orig).headers
        "Content-Encoding" = some "gzip" ∧
      objGet (Distributor.sendToTargetFetch gzipFn scripts m method orig).headers
        "Content-Length" = some (toString (gzipFn (Json.stringify b)).length) ∧
      objGet (Distributor.sendToTargetFetch gzipFn scripts m method orig).headers
        "content-encoding" = none) ∧
    (objGet orig.headers "content-encoding" ≠ some "gzip" →
      (Distributor.sendToTargetFetch gzipFn scripts m method orig).body =
        some (Distributor.BodyPayload.text (Json.stringify b)) ∧
      objGet (Distributor.sendToTargetFetch gzipFn scripts m method orig).headers
        "Content-Type" = some "application/json" ∧
      objGet (Distributor.sendToTargetFetch gzipFn scripts m method orig).headers
        "Content-Length" = some (toString (Json.stringify b).utf8ByteSize) ∧
      ∀ kv ∈ (Distributor.sendToTargetFetch gzipFn scripts m method orig).headers,
        ¬ lowerStr kv.1 = "content-encoding") := by
  have hopt : Distributor.sendToTargetFetch gzipFn scripts m method orig =
      Distributor.sendToTargetOptions gzipFn method tr := by
    rw [Distributor.sendToTargetFetch, htr]
  constructor
  · intro hgz
    have hce : objGet tr.headers "content-encoding" = some "gzip" := by
      rw [hpres, hgz]
    have hred : Distributor.sendToTargetOptions gzipFn method tr =
        { method := method,
          headers := objSet (objSet (Distributor.cleanHeaders tr.headers)
            "Content-Length" (toString (gzipFn (Json.stringify b)).length))
            "Content-Encoding" "gzip",
          body := some (Distributor.BodyPayload.bytes (gzipFn (Json.stringify b))) } := by
      have hmeth₂ : upperStr method = "POST" ∨ upperStr method = "PUT" ∨
          upperStr method = "PATCH" := by simpa using hmeth
      simp [Distributor.sendToTargetOptions, hb, hbt, hmeth₂, hce]
    rw [hopt, hred]
    refine ⟨rfl, objGet_objSet_self _ _ _, ?_, ?_⟩
    · rw [objGet_objSet_ne _ _ _ _ (by decide)]
      exact objGet_objSet_self _ _ _
    · rw [objGet_objSet_ne _ _ _ _ (by decide),
        objGet_objSet_ne _ _ _ _ (by decide),
        Distributor.cleanHeaders, foldl_objRemove_eq_filter]
      apply objGet_filter_none
      intro v
      simp [Distributor.removeHeaders]
  · intro hgz
    have hce : ¬ objGet tr.headers "content-encoding" = some "gzip" := by
      rw [hpres]
      exact hgz
    have hred : Distributor.sendToTargetOptions gzipFn method tr =
        { method := method,
          headers := objSet (objSet (Distributor.cleanHeaders tr.headers)
            "Content-Type" "application/json")
            "Content-Length" (toString (Json.stringify b).utf8ByteSize),
          body := some (Distributor.BodyPayload.text (Json.stringify b)) } := by
      have hmeth₂ : upperStr method = "POST" ∨ upperStr method = "PUT" ∨
          upperStr method = "PATCH" := by simpa using hmeth
      simp [Distributor.sendToTargetOptions, hb, hbt, hmeth₂, hce]
    rw [hopt, hred]
    refine ⟨rfl, ?_, objGet_objSet_self _ _ _, ?_⟩
    · rw [objGet_objSet_ne _ _ _ _ (by decide)]
      exact objGet_objSet_self _ _ _
    · intro kv hkv
      rcases mem_objSet hkv with hkv₁ | hkv₁
      · subst hkv₁
        show ¬ lowerStr "Content-Length" = "content-encoding"
        decide
      rcases mem_objSet hkv₁ with hkv₂ | hkv₂
      · subst hkv₂
        show ¬ lowerStr "Content-Type" = "content-encoding"
        decide
      rw [Distributor.cleanHeaders, foldl_objRemove_eq_filter] at hkv₂
      have hp := List.of_mem_filter hkv₂
      have hmem := List.mem_of_mem_filter hkv₂
      intro htl
      have hkey := hlc kv hmem htl
      rw [hkey] at hp
      simp [Distributor.removeHeaders] at hp

/-- Witness for C8: a POST carrying the JSON body with one field a over a
gzip-encoded inbound request and no scripts, with a stand-in gzip routine
returning one byte per input: the outbound body is the compressed bytes
and the headers carry Content-Encoding gzip with the compressed length 1;
on the plain variant of the same request the outbound body is the
serialized text with Content-Length 7, the uncompressed byte count. -/
theorem sendToTarget_gzip_roundtrip_witness :
    ((Distributor.sendToTargetFetch (fun s => [s.utf8ByteSize]) [] [] "POST"
        { headers := [("content-encoding", "gzip"),
                      ("content-type", "application/json")],
          params := [], body := some (Json.obj [("a", Json.num 1)]) }).body =
      some (Distributor.BodyPayload.bytes [7]) ∧
     objGet (Distributor.sendToTargetFetch (fun s => [s.utf8ByteSize]) [] [] "POST"
        { headers := [("content-encoding", "gzip"),
                      ("content-type", "application/json")],
          params := [], body := some (Json.obj [("a", Json.num 1)]) }).headers
        "Content-Encoding" = some "gzip" ∧
     objGet (Distributor.sendToTargetFetch (fun s => [s.utf8ByteSize]) [] [] "POST"
        { headers := [("content-encoding", "gzip"),
                      ("content-type", "application/json")],
          params := [], body := some (Json.obj [("a", Json.num 1)]) }).headers
        "Content-Length" = some "1") ∧
    ((Distributor.sendToTargetFetch (fun s => [s.utf8ByteSize]) [] [] "POST"
        { headers := [("content-type", "application/json")],
          params := [], body := some (Json.obj [("a", Json.num 1)]) }).body =
      some (Distributor.BodyPayload.text "\x7b\"a\":1\x7d") ∧
     objGet (Distributor.sendToTargetFetch (fun s => [s.utf8ByteSize]) [] [] "POST"
        { headers := [("content-type", "application/json")],
          params := [], body := some (Json.obj [("a", Json.num 1)]) }).headers
        "Content-Length" = some "7") := by
  have h₁ := sendToTarget_gzip_roundtrip (fun s => [s.utf8ByteSize]) [] [] "POST"
    { headers := [("content-encoding", "gzip"),
                  ("content-type", "application/json")],
      params := [], body := some (Json.obj [("a", Json.num 1)]) }
    { headers := [("content-encoding", "gzip"),
                  ("content-type", "application/json")],
      params := [], body := some (Json.obj [("a", Json.num 1)]) }
    (Json.obj [("a", Json.num 1)]) rfl (by decide) rfl rfl rfl (by decide)
  have h₂ := sendToTarget_gzip_roundtrip (fun s => [s.utf8ByteSize]) [] [] "POST"
    { headers := [("content-type", "application/json")],
      params := [], body := some (Json.obj [("a", Json.num 1)]) }
    { headers := [("content-type", "application/json")],
      params := [], body := some (Json.obj [("a", Json.num 1)]) }
    (Json.obj [("a", Json.num 1)]) rfl (by decide) rfl rfl rfl (by decide)
  have hA := h₁.1 rfl
  have hB := h₂.2 (by decide)
  exact ⟨⟨hA.1.trans (by decide), hA.2.1, hA.2.2.1.trans (by decide)⟩,
    ⟨hB.1.trans (by decide), hB.2.2.1.trans (by decide)⟩⟩

/-- Lookup through a filter whose predicate accepts every pair at the
key. -/
theorem objGet_filter_of_true (m : List (String × α)) (p : String × α → Bool)
    (k : String) (h : ∀ v, p (k, v) = true) :
    objGet (m.filter p) k = objGet m k := by
  induction m with
  | nil => rfl
  | cons hd tl ih =>
    obtain ⟨k₁, v₁⟩ := hd
    by_cases hk : k₁ = k
    · subst hk
      simp only [List.filter_cons, h v₁]
      simp [objGet, List.find?]
    · cases hp : p (k₁, v₁) with
      | true =>
        simp only [List.filter_cons, hp]
        simpa [objGet, List.find?, hk] using ih
      | false =>
        simp only [List.filter_cons, hp]
        rw [if_neg Bool.false_ne_true, ih]
        simp [objGet, List.find?, hk]

/-- Lookup after a sequence of property deletions. -/
theorem foldl_objRemove_objGet (names : List String) (m : List (String × α))
    (k : String) :
    objGet (names.foldl objRemove m) k =
      if k ∈ names then none else objGet m k := by
  induction names generalizing m with
  | nil => simp
  | cons n ns ih =>
    simp only [List.foldl_cons]
    rw [ih]
    by_cases hns : k ∈ ns
    · simp [hns]
    · by_cases hn : k = n
      · subst hn
        simp [hns, objGet_objRemove_self]
      · simp [hns, hn, objGet_objRemove_ne _ _ _ hn]

namespace ScriptLoader

theorem foldl_deleteName_scripts (names : List String) (st : LoaderState) :
    (names.foldl deleteName st).scripts = names.foldl objRemove st.scripts := by
  induction names generalizing st with
  | nil => rfl
  | cons n ns ih => simpa [deleteName] using ih (deleteName st n)

theorem foldl_deleteName_scriptMetadata (names : List String)
    (st : LoaderState) :
    (names.foldl deleteName st).scriptMetadata =
      names.foldl objRemove st.scriptMetadata := by
  induction names generalizing st with
  | nil => rfl
  | cons n ns ih => simpa [deleteName] using ih (deleteName st n)

theorem mem_namesToEvict (st : LoaderState) (rows : List ScriptData)
    (n : String) :
    n ∈ namesToEvict st rows ↔
      n ∈ st.scripts.map Prod.fst ∧ n ∉ rows.map (fun r => r.name) := by
  simp [namesToEvict]

/-- A name no new row carries is untouched by the load loop. -/
theorem foldl_loadScript_objGet_not_mem (compile : String → Option ScriptModule)
    (rows : List ScriptData) (st : LoaderState) (n : String)
    (hn : n ∉ rows.map (fun r => r.name)) :
    objGet (rows.foldl (loadScript compile) st).scripts n =
      objGet st.scripts n ∧
    objGet (rows.foldl (loadScript compile) st).scriptMetadata n =
      objGet st.scriptMetadata n := by
  induction rows generalizing st with
  | nil => exact ⟨rfl, rfl⟩
  | cons r rest ih =>
    simp only [List.map_cons, List.mem_cons, not_or] at hn
    obtain ⟨hne, hrest⟩ := hn
    simp only [List.foldl_cons]
    have hstep := ih (loadScript compile st r) hrest
    refine ⟨hstep.1.trans ?_, hstep.2.trans ?_⟩ <;>
      cases hc : compile r.content <;>
        simp [loadScript, hc, objGet_objSet_ne _ _ _ _ hne]

/-- The entry a row leaves behind when the whole batch of rows is loaded
over a state, for pairwise distinct row names: a compiled row owns the
final entry for its name, a row that fails to compile leaves the previous
entry in place. -/
theorem foldl_loadScript_objGet_mem (compile : String → Option ScriptModule)
    (rows : List ScriptData) (st : LoaderState) (row : ScriptData)
    (hrow : row ∈ rows) (hnd : (rows.map (fun r => r.name)).Nodup) :
    (∀ mod, compile row.content = some mod →
      objGet (rows.foldl (loadScript compile) st).scripts row.name = some mod ∧
      objGet (rows.foldl (loadScript compile) st).scriptMetadata row.name =
        some (metaOf row)) ∧
    (compile row.content = none →
      objGet (rows.foldl (loadScript compile) st).scripts row.name =
        objGet st.scripts row.name ∧
      objGet (rows.foldl (loadScript compile) st).scriptMetadata row.name =
        objGet st.scriptMetadata row.name) := by
  induction rows generalizing st with
  | nil => cases hrow
  | cons r rest ih =>
    simp only [List.map_cons, List.nodup_cons] at hnd
    rcases List.mem_cons.mp hrow with hr | hr
    · subst hr
      have hnotin : row.name ∉ rest.map (fun r => r.name) := hnd.1
      have huntouched := foldl_loadScript_objGet_not_mem compile rest
        (loadScript compile st row) row.name hnotin
      simp only [List.foldl_cons]
      constructor
      · intro mod hc
        rw [huntouched.1, huntouched.2]
        simp [loadScript, hc, objGet_objSet_self]
      · intro hc
        rw [huntouched.1, huntouched.2]
        simp [loadScript, hc]
    · have := ih (loadScript compile st r) hr hnd.2
      simp only [List.foldl_cons]
      refine ⟨this.1, fun hc => ?_⟩
      have hname : row.name ≠ r.name := by
        intro heq
        exact hnd.1 (heq ▸ List.mem_map_of_mem (fun r => r.name) hr)
      refine ⟨(this.2 hc).1.trans ?_, (this.2 hc).2.trans ?_⟩ <;>
        cases hcr : compile r.content <;>
          simp [loadScript, hcr, objGet_objSet_ne _ _ _ _ hname]

end ScriptLoader

/-- C9 counterexample: a reload of a registry holding scripts a and b from
a backing store now holding only an updated a passes through the state in
which b is already evicted but a still carries its old metadata - a table
that is neither the complete old table nor the complete new one, because
the reload mutates the shared table in place instead of swapping an
immutable snapshot.  The claim that every mid-reload table equals the old
or the new table is therefore false on this input. -/
theorem reload_intermediate_state_cex :
    ¬ (∀ s ∈ ScriptLoader.reloadStates
        (fun _ => some { transformHeaders := none, transformParams := none,
                         transformBody := none })
        { scripts := [("a", { transformHeaders := none,
                              transformParams := none, transformBody := none }),
                      ("b", { transformHeaders := none,
                              transformParams := none, transformBody := none })],
          scriptMetadata := [("a", { tags := [], description := "v1",
                                     pathPattern := "" }),
                             ("b", { tags := [], description := "",
                                     pathPattern := "" })] }
        [{ name := "a", content := "c2", tags := [], description := "v2",
           pathPattern := "" }],
        s.scriptMetadata =
          [("a", { tags := [], description := "v1", pathPattern := "" }),
           ("b", { tags := [], description := "", pathPattern := "" })] ∨
        s.scriptMetadata =
          (ScriptLoader.loadAllScripts
            (fun _ => some { transformHeaders := none, transformParams := none,
                             transformBody := none })
            { scripts := [("a", { transformHeaders := none,
                                  transformParams := none,
                                  transformBody := none }),
                          ("b", { transformHeaders := none,
                                  transformParams := none,
                                  transformBody := none })],
              scriptMetadata := [("a", { tags := [], description := "v1",
                                         pathPattern := "" }),
                                 ("b", { tags := [], description := "",
                                         pathPattern := "" })] }
            [{ name := "a", content := "c2", tags := [], description := "v2",
               pathPattern := "" }]).scriptMetadata) := by
  decide

/-- C9 (amended): a reload is not an atomic snapshot swap - the table is
mutated in place through intermediate states (see the counterexample) -
but when loadAllScripts completes the registry is exactly the table of the
new backing-store rows: a name absent from the rows has no entry, a row
that compiles owns its entry with its new module and metadata, and a row
that fails to compile leaves the previous entry of its name in place. -/
theorem loadAllScripts_final_state (compile : String → Option ScriptModule)
    (st : LoaderState) (rows : List ScriptData)
    (hnd : (rows.map (fun r => r.name)).Nodup) :
    (∀ n, n ∉ rows.map (fun r => r.name) →
      objGet (ScriptLoader.loadAllScripts compile st rows).scripts n = none) ∧
    (∀ row ∈ rows, ∀ mod, compile row.content = some mod →
      objGet (ScriptLoader.loadAllScripts compile st rows).scripts row.name =
        some mod ∧
      objGet (ScriptLoader.loadAllScripts compile st rows).scriptMetadata
        row.name = some (ScriptLoader.metaOf row)) ∧
    (∀ row ∈ rows, compile row.content = none →
      objGet (ScriptLoader.loadAllScripts compile st rows).scripts row.name =
        objGet st.scripts row.name ∧
      objGet (ScriptLoader.loadAllScripts compile st rows).scriptMetadata
        row.name = objGet st.scriptMetadata row.name) := by
  have hevict_s : ((ScriptLoader.namesToEvict st rows).foldl
      ScriptLoader.deleteName st).scripts =
      (ScriptLoader.namesToEvict st rows).foldl objRemove st.scripts :=
    ScriptLoader.foldl_deleteName_scripts _ _
  have hevict_m : ((ScriptLoader.namesToEvict st rows).foldl
      ScriptLoader.deleteName st).scriptMetadata =
      (ScriptLoader.namesToEvict st rows).foldl objRemove st.scriptMetadata :=
    ScriptLoader.foldl_deleteName_scriptMetadata _ _
  refine ⟨?_, ?_, ?_⟩
  · intro n hn
    rw [ScriptLoader.loadAllScripts,
      (ScriptLoader.foldl_loadScript_objGet_not_mem compile rows
        ((ScriptLoader.namesToEvict st rows).foldl ScriptLoader.deleteName st)
        n hn).1,
      hevict_s, foldl_objRemove_objGet]
    by_cases hk : n ∈ st.scripts.map Prod.fst
    · rw [if_pos ((ScriptLoader.mem_namesToEvict st rows n).mpr ⟨hk, hn⟩)]
    · have hnot : n ∉ ScriptLoader.namesToEvict st rows := fun hmem =>
        hk ((ScriptLoader.mem_namesToEvict st rows n).mp hmem).1
      rw [if_neg hnot]
      exact objGet_eq_none_of_not_mem (fun kv hkv hne =>
        hk (hne ▸ List.mem_map_of_mem Prod.fst hkv))
  · intro row hrow mod hc
    exact ((ScriptLoader.foldl_loadScript_objGet_mem compile rows
      ((ScriptLoader.namesToEvict st rows).foldl ScriptLoader.deleteName st)
      row hrow hnd).1 mod hc)
  · intro row hrow hc
    have hmain := (ScriptLoader.foldl_loadScript_objGet_mem compile rows
      ((ScriptLoader.namesToEvict st rows).foldl ScriptLoader.deleteName st)
      row hrow hnd).2 hc
    have hnotevict : row.name ∉ ScriptLoader.namesToEvict st rows := by
      intro hmem
      exact ((ScriptLoader.mem_namesToEvict st rows row.name).mp hmem).2
        (List.mem_map_of_mem (fun r => r.name) hrow)
    constructor
    · unfold ScriptLoader.loadAllScripts
      rw [hmain.1, hevict_s, foldl_objRemove_objGet, if_neg hnotevict]
    · unfold ScriptLoader.loadAllScripts
      rw [hmain.2, hevict_m, foldl_objRemove_objGet, if_neg hnotevict]

/-- Witness for C9: a one-row store over a two-script registry; after the
reload the updated script owns its entry with the new metadata. -/
theorem loadAllScripts_final_state_witness :
    objGet (ScriptLoader.loadAllScripts
      (fun _ => some { transformHeaders := none, transformParams := none,
                       transformBody := none })
      { scripts := [("a", { transformHeaders := none, transformParams := none,
                            transformBody := none }),
                    ("b", { transformHeaders := none, transformParams := none,
                            transformBody := none })],
        scriptMetadata := [("a", { tags := [], description := "v1",
                                   pathPattern := "" }),
                           ("b", { tags := [], description := "",
                                   pathPattern := "" })] }
      [{ name := "a", content := "c2", tags := [], description := "v2",
         pathPattern := "" }]).scriptMetadata "a" =
      some { tags := [], description := "v2", pathPattern := "" } := by
  exact ((loadAllScripts_final_state
    (fun _ => some { transformHeaders := none, transformParams := none,
                     transformBody := none })
    { scripts := [("a", { transformHeaders := none, transformParams := none,
                          transformBody := none }),
                  ("b", { transformHeaders := none, transformParams := none,
                          transformBody := none })],
      scriptMetadata := [("a", { tags := [], description := "v1",
                                 pathPattern := "" }),
                         ("b", { tags := [], description := "",
                                 pathPattern := "" })] }
    [{ name := "a", content := "c2", tags := [], description := "v2",
       pathPattern := "" }] (by simp)).2.1
    { name := "a", content := "c2", tags := [], description := "v2",
      pathPattern := "" } (by simp)
    { transformHeaders := none, transformParams := none,
      transformBody := none } rfl).2

end Flux
